import Mathlib

/-
  Verification of the orchestration layer of acoss (src/acoss/extractors.py).

  The embedding translates the three layers of the batch pipeline:
  `PROFILE` / `compute_features` / `compute_features_from_list_file` /
  `batch_feature_extractor`, parametrised over the external
  Feature-Computation collaborator (`AudioFeatures` in acoss/features.py,
  which is outside the orchestration core).
-/

set_option autoImplicit false

namespace Acoss

universe u v

/-- Values stored in the output dictionary of `compute_features`: either a
computed feature value (of some collaborator-chosen type `V`) or one of the
metadata strings (`track_id`, `label`). -/
inductive Value (V : Type u) where
  | feat (v : V)
  | str (s : String)
deriving DecidableEq, Repr

/-- Python exceptions that the translated code can raise:
`ioError` models `IOError("Empty or invalid audio recording file ...")`,
`attributeError` models the `AttributeError` a `getattr` on an unknown
feature name raises, `indexError` models the `IndexError` of an
out-of-range list index such as `lst[-2]` on a short list. -/
inductive PyErr where
  | ioError
  | attributeError
  | indexError
deriving DecidableEq, Repr

/-- The extractor profile dictionary (extractors.py lines 22-32): sample
rate, input audio format suffix, downsampling switch and factor, optional
end-time trim, and the ordered list of feature names to compute. Numeric
fields use `Rat` so that the division `sample_rate / downsample_factor` is
exact. -/
structure Profile where
  sample_rate : Rat
  input_audio_format : String
  downsample_audio : Bool
  downsample_factor : Rat
  endtime : Option Rat
  features : List String
deriving DecidableEq, Repr

/-- The default profile `PROFILE` of extractors.py lines 22-32. -/
def PROFILE : Profile :=
  { sample_rate := 44100
    input_audio_format := ".mp3"
    downsample_audio := false
    downsample_factor := 2
    endtime := none
    features := ["hpcp", "key_extractor", "madmom_features", "mfcc_htk"] }

/-- Modelled from the spec: the Feature-Computation collaborator
(`AudioFeatures` from acoss/features.py, which is not part of the
orchestration core under src/). Per the spec it decodes an audio file at a
requested sample rate into a signal, offers trimming (`audio_slicer`) and
resampling (`resample_audio`) of that signal, and exposes one callable per
feature name with no shared mutable state between calls; `capability`
returns `none` for a name that is not a capability (a `getattr` failure).
`vlen` is the signal length `audio_vector.shape[0]`. The signal type `σ`
and feature-value type `V` are parameters, so any concrete collaborator
can instantiate the model. -/
structure AudioFeaturesClass (σ : Type u) (V : Type v) where
  decode : String → Rat → σ
  vlen : σ → Nat
  audio_slicer : σ → Rat → σ
  resample_audio : σ → Rat → σ
  capability : String → Option (σ → V)

variable {σ : Type u} {V : Type v}

/-- Whether the first list starts with the second one, comparing
element-wise. -/
def startsWithList : List Char → List Char → Bool
  | _, [] => true
  | [], _ :: _ => false
  | c :: cs, p :: ps => c == p && startsWithList cs ps

/-- Fuel-driven core of `pyReplace`: scan left to right, replacing each
leftmost non-overlapping occurrence of `pat` by `rep`. The fuel is the
length of the scanned list, so it never runs out; each step consumes one
fuel unit while the list shrinks by at least one element. -/
def replaceFuel (pat rep : List Char) : Nat → List Char → List Char
  | 0, l => l
  | _ + 1, [] => []
  | n + 1, c :: cs =>
    if startsWithList (c :: cs) pat && !pat.isEmpty then
      rep ++ replaceFuel pat rep n ((c :: cs).drop pat.length)
    else c :: replaceFuel pat rep n cs

/-- Python `str.replace(pat, rep)`: replace every leftmost
non-overlapping occurrence of `pat`, left to right. For an empty `pat`
this model returns `s` unchanged, which agrees with Python for the empty
replacement string the source always passes
(`"ab".replace("", "") == "ab"`). -/
def pyReplace (s pat rep : String) : String :=
  String.mk (replaceFuel pat.data rep.data s.data.length s.data)

/-- Python `str.split("/")` on the character list: splitting at every
separator, keeping empty chunks, so the result always has one more chunk
than there are separators. -/
def splitOnChar (sep : Char) : List Char → List (List Char)
  | [] => [[]]
  | c :: cs =>
    match splitOnChar sep cs with
    | [] => [[]]
    | r :: rs => if c == sep then [] :: r :: rs else (c :: r) :: rs

/-- Python `audio_path.split("/")`. -/
def pySplitSlash (s : String) : List String :=
  (splitOnChar (Char.ofNat 47) s.data).map (fun cs => String.mk cs)

/-- Python `os.path.basename` for POSIX paths: the part after the final
separator. -/
def pyBasename (s : String) : String :=
  (pySplitSlash s).getLastD ""

/-- Whether a Python dict, modelled as an insertion-ordered association
list, has a binding for key `k`. -/
def hasKey (d : List (String × Value V)) (k : String) : Bool :=
  d.any (fun p => p.1 == k)

/-- Replace the value of an entry whose key is `k`, keeping other entries
unchanged. -/
def keyOverwrite (k : String) (v : Value V) (p : String × Value V) :
    String × Value V :=
  if p.1 == k then (k, v) else p

/-- Python dict assignment `d[k] = v`: overwrite in place when the key is
present, append otherwise. -/
def dinsert (d : List (String × Value V)) (k : String) (v : Value V) :
    List (String × Value V) :=
  if hasKey d k then d.map (keyOverwrite k v)
  else d ++ [(k, v)]

/-- Python dict lookup `d[k]`, as an `Option`. -/
def dlookup (d : List (String × Value V)) (k : String) : Option (Value V) :=
  (d.find? (fun p => p.1 == k)).map (fun p => p.2)

/-- Lines 60-61 of extractors.py: `if params["endtime"]:` then
`feature.audio_vector = feature.audio_slicer(endTime=params["endtime"])`.
Python truthiness makes both `None` and `0` skip the trim. -/
def trimSignal (F : AudioFeaturesClass σ V) (av : σ) : Option Rat → σ
  | none => av
  | some t => if t = 0 then av else F.audio_slicer av t

/-- Lines 67-68 of extractors.py: the loop
`for method in params["features"]: out_dict[method] = getattr(feature, method)()`.
Returns the resulting dict (or the `AttributeError` of the first unknown
name) together with the list of feature capabilities actually invoked, in
invocation order. -/
def featLoop (F : AudioFeaturesClass σ V) (av : σ) :
    List String → List (String × Value V) →
    Except PyErr (List (String × Value V)) × List String
  | [], out => (Except.ok out, [])
  | m :: ms, out =>
    match F.capability m with
    | none => (Except.error PyErr.attributeError, [])
    | some f =>
      let r := featLoop F av ms (dinsert out m (Value.feat (f av)))
      (r.1, m :: r.2)

/-- Lines 56-63 of extractors.py as a signal pipeline: decode at
`params.sample_rate`, apply the optional end-time trim (line 61), then,
when `downsample_audio` is set, resample the trimmed signal to
`sample_rate / downsample_factor` (line 63). -/
def processedSignal (F : AudioFeaturesClass σ V) (audio_path : String)
    (params : Profile) : σ :=
  let av1 := trimSignal F (F.decode audio_path params.sample_rate) params.endtime
  if params.downsample_audio then
    F.resample_audio av1 (params.sample_rate / params.downsample_factor)
  else av1

/-- `compute_features` (extractors.py lines 40-76), parametrised by the
collaborator `F`. Returns the Python dict (or the exception raised)
together with the list of feature capabilities invoked. Decoding happens
at `params.sample_rate`; an empty decoded signal raises `IOError` before
any feature capability runs; the optional end-time trim and optional
resampling are applied by `processedSignal`; then each named feature is
invoked on the processed signal; finally `track_id` (basename with every
occurrence of the input format removed, via `str.replace`) and `label`
(`audio_path.split("/")[-2]`, an `IndexError` when fewer than two
components exist) are added. -/
def compute_features (F : AudioFeaturesClass σ V) (audio_path : String)
    (params : Profile) :
    Except PyErr (List (String × Value V)) × List String :=
  let av0 := F.decode audio_path params.sample_rate
  if F.vlen av0 = 0 then (Except.error PyErr.ioError, [])
  else
    match featLoop F (processedSignal F audio_path params) params.features [] with
    | (Except.error e, tr) => (Except.error e, tr)
    | (Except.ok out0, tr) =>
      let track_id := pyReplace (pyBasename audio_path) params.input_audio_format ""
      let out1 := dinsert out0 "track_id" (Value.str track_id)
      let comps := pySplitSlash audio_path
      if h : 2 ≤ comps.length then
        (Except.ok (dinsert out1 "label"
          (Value.str (comps.get ⟨comps.length - 2, by omega⟩))), tr)
      else (Except.error PyErr.indexError, tr)

/-- The reading the spec gives of `track_id`: "the filename with the configured
input-format suffix removed" — remove one trailing occurrence of the
suffix, and only a trailing one. Stated from the words of the spec, to be
compared against the `str.replace` of the source. -/
def stripSuffixSpec (name fmt : String) : String :=
  if startsWithList name.data.reverse fmt.data.reverse then
    String.mk (name.data.take (name.data.length - fmt.data.length))
  else name

/-- Accumulator state of the per-song loop of
`compute_features_from_list_file` (extractors.py lines 103-117): the
artifact writes performed (`dd.io.save` target path and dict), the
process-wide `_ERRORS` list, the number of `progress_bar.next()` calls,
and the number of `compute_features` invocations made. -/
structure ExtractState (V : Type v) where
  writes : List (String × List (String × Value V))
  errors : List String
  progressCount : Nat
  computeCalls : Nat
deriving Repr

/-- The body of the `try:` block for one song (lines 104-112): run
`compute_features`, derive `work_id = song.split("/")[-2]`,
`work_dir = feature_dir + work_id + "/"`, and the `.h5` artifact path.
Returns `none` exactly when the block raises (a `compute_features`
exception or the `IndexError` of the split), `some (artifact, dict)` on
success. Directory creation and `dd.io.save` are modelled as succeeding
writes recorded in the state. -/
def trySong (F : AudioFeaturesClass σ V) (params : Profile)
    (feature_dir song : String) :
    Option (String × List (String × Value V)) :=
  match (compute_features F song params).1 with
  | Except.error _ => none
  | Except.ok feature_dict =>
    let comps := pySplitSlash song
    if h : 2 ≤ comps.length then
      some (feature_dir ++ comps.get ⟨comps.length - 2, by omega⟩ ++ "/" ++
        (pyReplace (pyBasename song) params.input_audio_format "" ++ ".h5"),
        feature_dict)
    else none

/-- One iteration of the song loop (lines 103-117): the `try:` block,
the `except:` branch that appends the manifest path and the failing song
path to `_ERRORS`, and the unconditional `progress_bar.next()`. -/
def processSong (F : AudioFeaturesClass σ V) (params : Profile)
    (input_txt_file feature_dir : String) (st : ExtractState V)
    (song : String) : ExtractState V :=
  match trySong F params feature_dir song with
  | some w =>
    { st with writes := st.writes ++ [w],
              progressCount := st.progressCount + 1,
              computeCalls := st.computeCalls + 1 }
  | none =>
    { st with errors := st.errors ++ [input_txt_file, song],
              progressCount := st.progressCount + 1,
              computeCalls := st.computeCalls + 1 }

/-- Observable outcome of one `compute_features_from_list_file` run:
whether the empty-manifest `IOError` was raised, the (filtered) list of
paths the loop iterated over, the artifact writes, the final `_ERRORS`
list, the progress and `compute_features` call counts, and the value the
final summary line reports (`none` when the run raised before reaching
the loop). -/
structure RunResult (V : Type v) where
  raisedEmptyManifest : Bool
  processed : List String
  writes : List (String × List (String × Value V))
  errors : List String
  progressCount : Nat
  computeCalls : Nat
  summaryElapsed : Option Rat
deriving Repr

/-- `compute_features_from_list_file` (extractors.py lines 79-119),
parametrised by the collaborator `F` and the filesystem predicate
`pexists` (`os.path.exists`). `data0` is the list of manifest lines
(modelled from the spec: `read_txt_file` of acoss/utils.py, not under
src/, returns the line-delimited path strings of the manifest). `errors0` is
the `_ERRORS` list before the run. `start_mono` is the value
`time.monotonic()` read at line 92 and `wall_end` the value `time.time()`
read at line 119; the summary line reports `start_mono - wall_end`
exactly as line 119 computes it. -/
def compute_features_from_list_file (F : AudioFeaturesClass σ V)
    (pexists : String → Bool) (data0 : List String)
    (input_txt_file feature_dir : String) (params : Profile)
    (errors0 : List String) (start_mono wall_end : Rat) : RunResult V :=
  let data := data0.filter pexists
  if data.length < 1 then
    { raisedEmptyManifest := true, processed := [], writes := [],
      errors := errors0, progressCount := 0, computeCalls := 0,
      summaryElapsed := none }
  else
    let st := data.foldl (processSong F params input_txt_file feature_dir)
      { writes := [], errors := errors0, progressCount := 0, computeCalls := 0 }
    { raisedEmptyManifest := false, processed := data, writes := st.writes,
      errors := st.errors, progressCount := st.progressCount,
      computeCalls := st.computeCalls,
      summaryElapsed := some (start_mono - wall_end) }

/-- What `batch_feature_extractor` hands to the joblib pool: the pool
size `n_jobs` and the list of `(collection_file, feature_dir, profile)`
argument triples, one per dispatched Runner invocation. -/
structure Dispatch where
  n_jobs : Int
  tasks : List (String × String × Profile)
deriving DecidableEq, Repr

/-- `glob.glob(temp.name)` at line 136. Modelled from the spec: the
pattern is a `NamedTemporaryFile` name (prefix `tmp` plus random
characters), which contains no glob wildcard, so glob returns exactly the
existing paths equal to the pattern. `fs` is the list of existing paths. -/
def glob_glob (fs : List String) (pattern : String) : List String :=
  fs.filter (fun p => p == pattern)

/-- `batch_feature_extractor` (extractors.py lines 122-147), after the
directory walk has filled the temporary manifest `temp_name`:
`collection_files = glob.glob(temp.name)`, then `feature_path` and
`param_list` replicate `feature_dir` and the profile once per collection
file, and the zip of the three is dispatched to
`Parallel(n_jobs=n_workers)`. -/
def batch_feature_extractor (fs : List String) (temp_name feature_dir : String)
    (n_workers : Int) (extractor_profile : Profile) : Dispatch :=
  let collection_files := glob_glob fs temp_name
  let feature_path := List.replicate collection_files.length feature_dir
  let param_list := List.replicate collection_files.length extractor_profile
  { n_jobs := n_workers,
    tasks := collection_files.zip (feature_path.zip param_list) }

/-- A trivial concrete collaborator: every path decodes to a one-sample
signal, every name is a capability computing `0`. -/
def F0 : AudioFeaturesClass Unit Nat :=
  { decode := fun _ _ => ()
    vlen := fun _ => 1
    audio_slicer := fun s _ => s
    resample_audio := fun s _ => s
    capability := fun _ => some (fun _ => 0) }

/-- A concrete collaborator whose decoded signal is empty for every
path. -/
def Fempty : AudioFeaturesClass Unit Nat :=
  { decode := fun _ _ => ()
    vlen := fun _ => 0
    audio_slicer := fun s _ => s
    resample_audio := fun s _ => s
    capability := fun _ => some (fun _ => 0) }

/-- A concrete instrumented collaborator whose signal records the
processing operations applied to it, so trimming and resampling are each
independently observable in every computed feature value. -/
def Ftrace : AudioFeaturesClass (List String) (List String) :=
  { decode := fun _ _ => ["decode"]
    vlen := fun _ => 1
    audio_slicer := fun s _ => s ++ ["slice"]
    resample_audio := fun s _ => s ++ ["resample"]
    capability := fun _ => some (fun s => s) }

/-- A profile with downsampling enabled and an end-time trim, used to
observe the processing order on the instrumented collaborator. -/
def PROFILE_ds : Profile :=
  { PROFILE with
    downsample_audio := true
    endtime := some 30
    features := ["hpcp"] }

/-- A concrete collaborator over string signals for which exactly the
path `"x/bad.mp3"` decodes to an empty signal and every other path
decodes to a one-sample signal. -/
def Fsig : AudioFeaturesClass String Nat :=
  { decode := fun p _ => p
    vlen := fun s => if s == "x/bad.mp3" then 0 else 1
    audio_slicer := fun s _ => s
    resample_audio := fun s _ => s
    capability := fun _ => some (fun _ => 0) }

/-- The `_ERRORS` entries the song loop appends for a given list of
failing songs: for each failing song, the manifest path followed by the
song path (lines 114-115). -/
def errorEntries (input_txt_file : String) : List String → List String
  | [] => []
  | s :: ss => input_txt_file :: s :: errorEntries input_txt_file ss

theorem keyOverwrite_fst (k : String) (v : Value V) (p : String × Value V) :
    (keyOverwrite k v p).1 = p.1 := by
  unfold keyOverwrite
  by_cases h : (p.1 == k) = true
  · simp only [h, if_true]
    exact (eq_of_beq h).symm
  · simp only [h, if_false, Bool.false_eq_true]

theorem hasKey_map_keyOverwrite (d : List (String × Value V)) (k q : String)
    (v : Value V) :
    hasKey (d.map (keyOverwrite k v)) q = hasKey d q := by
  unfold hasKey
  rw [List.any_map]
  have hfun : ((fun p : String × Value V => p.1 == q) ∘ keyOverwrite k v) =
      fun p : String × Value V => p.1 == q := by
    funext p
    simp only [Function.comp_apply, keyOverwrite_fst]
  rw [hfun]

theorem find?_map_keyOverwrite_self (d : List (String × Value V)) (k : String)
    (v : Value V) (h : hasKey d k = true) :
    (d.map (keyOverwrite k v)).find? (fun p => p.1 == k) = some (k, v) := by
  induction d with
  | nil => simp [hasKey] at h
  | cons p d ih =>
    rw [List.map_cons]
    by_cases hp : (p.1 == k) = true
    · have hfix : keyOverwrite k v p = (k, v) := by simp [keyOverwrite, hp]
      rw [hfix]
      exact List.find?_cons_of_pos _ (by simp)
    · have hfix : keyOverwrite k v p = p := by simp [keyOverwrite, hp]
      rw [hfix, List.find?_cons_of_neg _ (by simp [hp])]
      apply ih
      simp only [hasKey, List.any_cons, hp, Bool.false_or] at h
      exact h

theorem find?_map_keyOverwrite_ne (d : List (String × Value V)) (k q : String)
    (v : Value V) (h : q ≠ k) :
    (d.map (keyOverwrite k v)).find? (fun p => p.1 == q) =
      d.find? (fun p => p.1 == q) := by
  induction d with
  | nil => rfl
  | cons p d ih =>
    rw [List.map_cons]
    by_cases hp : (p.1 == q) = true
    · have hne : (p.1 == k) = false := by
        have hq : p.1 = q := eq_of_beq hp
        subst hq
        simpa using h
      have hfix : keyOverwrite k v p = p := by simp [keyOverwrite, hne]
      rw [hfix]
      rw [List.find?_cons, List.find?_cons]
      simp only [hp, cond_true]
    · have hfst : ((keyOverwrite k v p).1 == q) = false := by
        rw [keyOverwrite_fst]
        simpa using hp
      rw [List.find?_cons_of_neg _ (by simp [hfst]),
        List.find?_cons_of_neg _ (by simp [hp])]
      exact ih

theorem find?_eq_none_of_hasKey_false (d : List (String × Value V)) (k : String)
    (h : hasKey d k = false) : d.find? (fun p => p.1 == k) = none := by
  induction d with
  | nil => rfl
  | cons p d ih =>
    simp only [hasKey, List.any_cons, Bool.or_eq_false_iff] at h
    rw [List.find?_cons_of_neg _ (by simp [h.1])]
    exact ih (by simp only [hasKey]; exact h.2)

theorem dlookup_dinsert_self (d : List (String × Value V)) (k : String)
    (v : Value V) : dlookup (dinsert d k v) k = some v := by
  unfold dinsert
  by_cases h : hasKey d k = true
  · rw [if_pos h]
    unfold dlookup
    rw [find?_map_keyOverwrite_self d k v h]
    rfl
  · rw [if_neg h]
    unfold dlookup
    rw [List.find?_append, find?_eq_none_of_hasKey_false d k (by simpa using h)]
    simp

theorem dlookup_dinsert_ne (d : List (String × Value V)) (k q : String)
    (v : Value V) (h : q ≠ k) : dlookup (dinsert d k v) q = dlookup d q := by
  unfold dinsert
  by_cases hh : hasKey d k = true
  · rw [if_pos hh]
    unfold dlookup
    rw [find?_map_keyOverwrite_ne d k q v h]
  · rw [if_neg hh]
    unfold dlookup
    rw [List.find?_append]
    have : [(k, v)].find? (fun p => p.1 == q) = none := by
      simp [List.find?, show (k == q) = false by simpa using (Ne.symm h)]
    rw [this]
    simp

theorem hasKey_dinsert (d : List (String × Value V)) (k q : String)
    (v : Value V) : hasKey (dinsert d k v) q = (q == k || hasKey d q) := by
  unfold dinsert
  by_cases hh : hasKey d k = true
  · rw [if_pos hh, hasKey_map_keyOverwrite]
    by_cases hq : q = k
    · subst hq
      simp [hh]
    · simp [show (q == k) = false by simpa using hq]
  · rw [if_neg hh]
    unfold hasKey
    rw [List.any_append]
    by_cases hq : q = k
    · subst hq
      simp
    · simp only [List.any_cons, List.any_nil, Bool.or_false]
      rw [show (k == q) = false by simpa using (Ne.symm hq),
        show (q == k) = false by simpa using hq]
      simp [hasKey]

theorem featLoop_trace (F : AudioFeaturesClass σ V) (av : σ) (ms : List String) :
    ∀ out : List (String × Value V),
    (∀ m ∈ ms, (F.capability m).isSome) → (featLoop F av ms out).2 = ms := by
  induction ms with
  | nil => intro out _; rfl
  | cons m ms ih =>
    intro out hcap
    obtain ⟨f, hf⟩ := Option.isSome_iff_exists.mp (hcap m (List.mem_cons_self m ms))
    simp only [featLoop, hf]
    rw [ih _ (fun x hx => hcap x (List.mem_cons_of_mem m hx))]

theorem featLoop_ok (F : AudioFeaturesClass σ V) (av : σ) (ms : List String) :
    ∀ out : List (String × Value V),
    (∀ m ∈ ms, (F.capability m).isSome) →
    ∃ d, (featLoop F av ms out).1 = Except.ok d := by
  induction ms with
  | nil => intro out _; exact ⟨out, rfl⟩
  | cons m ms ih =>
    intro out hcap
    obtain ⟨f, hf⟩ := Option.isSome_iff_exists.mp (hcap m (List.mem_cons_self m ms))
    simp only [featLoop, hf]
    exact ih _ (fun x hx => hcap x (List.mem_cons_of_mem m hx))

theorem featLoop_hasKey (F : AudioFeaturesClass σ V) (av : σ) (ms : List String) :
    ∀ (out d : List (String × Value V)) (q : String),
    (featLoop F av ms out).1 = Except.ok d →
    (hasKey d q = true ↔ q ∈ ms ∨ hasKey out q = true) := by
  induction ms with
  | nil =>
    intro out d q hd
    simp only [featLoop, Except.ok.injEq] at hd
    subst hd
    simp
  | cons m ms ih =>
    intro out d q hd
    cases hf : F.capability m with
    | none =>
      simp only [featLoop, hf] at hd
      exact Except.noConfusion hd
    | some f =>
      simp only [featLoop, hf] at hd
      have := ih (dinsert out m (Value.feat (f av))) d q hd
      rw [hasKey_dinsert] at this
      rw [this]
      simp only [List.mem_cons, Bool.or_eq_true, beq_iff_eq]
      tauto

theorem featLoop_lookup_notMem (F : AudioFeaturesClass σ V) (av : σ)
    (ms : List String) :
    ∀ (out d : List (String × Value V)) (q : String), q ∉ ms →
    (featLoop F av ms out).1 = Except.ok d → dlookup d q = dlookup out q := by
  induction ms with
  | nil =>
    intro out d q _ hd
    simp only [featLoop, Except.ok.injEq] at hd
    subst hd
    rfl
  | cons m ms ih =>
    intro out d q hq hd
    cases hf : F.capability m with
    | none =>
      simp only [featLoop, hf] at hd
      exact Except.noConfusion hd
    | some f =>
      simp only [featLoop, hf] at hd
      have hq2 : q ∉ ms := fun h => hq (List.mem_cons_of_mem m h)
      have hqm : q ≠ m := fun h => hq (h ▸ List.mem_cons_self m ms)
      rw [ih (dinsert out m (Value.feat (f av))) d q hq2 hd,
        dlookup_dinsert_ne out m q (Value.feat (f av)) hqm]

theorem featLoop_lookup_mem (F : AudioFeaturesClass σ V) (av : σ)
    (ms : List String) :
    ∀ (out d : List (String × Value V)) (m : String) (f : σ → V), m ∈ ms →
    F.capability m = some f →
    (featLoop F av ms out).1 = Except.ok d →
    dlookup d m = some (Value.feat (f av)) := by
  induction ms with
  | nil => intro out d m f hm; exact absurd hm (List.not_mem_nil m)
  | cons m₁ ms ih =>
    intro out d m f hm hf hd
    cases hf1 : F.capability m₁ with
    | none =>
      simp only [featLoop, hf1] at hd
      exact Except.noConfusion hd
    | some f₁ =>
      simp only [featLoop, hf1] at hd
      by_cases hmem : m ∈ ms
      · exact ih (dinsert out m₁ (Value.feat (f₁ av))) d m f hmem hf hd
      · have hm1 : m = m₁ := by
          rcases List.mem_cons.mp hm with h | h
          · exact h
          · exact absurd h hmem
        subst hm1
        have hff : f = f₁ := by
          rw [hf] at hf1
          exact (Option.some.injEq _ _ ▸ hf1 : f = f₁)
        subst hff
        rw [featLoop_lookup_notMem F av ms _ d m hmem hd,
          dlookup_dinsert_self out m (Value.feat (f av))]

theorem compute_features_ok_shape (F : AudioFeaturesClass σ V)
    (audio_path : String) (params : Profile)
    (hv : F.vlen (F.decode audio_path params.sample_rate) ≠ 0)
    (hcap : ∀ m ∈ params.features, (F.capability m).isSome)
    (hcomp : 2 ≤ (pySplitSlash audio_path).length) :
    ∃ out0,
      (featLoop F (processedSignal F audio_path params) params.features []).1 =
        Except.ok out0 ∧
      compute_features F audio_path params =
        (Except.ok (dinsert (dinsert out0 "track_id"
            (Value.str (pyReplace (pyBasename audio_path)
              params.input_audio_format "")))
          "label" (Value.str ((pySplitSlash audio_path).get
            ⟨(pySplitSlash audio_path).length - 2, by omega⟩))),
         params.features) := by
  obtain ⟨out0, hout⟩ :=
    featLoop_ok F (processedSignal F audio_path params) params.features [] hcap
  have htr :=
    featLoop_trace F (processedSignal F audio_path params) params.features [] hcap
  refine ⟨out0, hout, ?_⟩
  have hpair : featLoop F (processedSignal F audio_path params) params.features []
      = (Except.ok out0, params.features) := by
    rcases hfl : featLoop F (processedSignal F audio_path params) params.features []
      with ⟨r1, r2⟩
    rw [hfl] at hout htr
    rw [Prod.mk.injEq]
    exact ⟨hout, htr⟩
  simp only [compute_features, if_neg hv, hpair]
  rw [dif_pos hcomp]

theorem compute_features_short_path (F : AudioFeaturesClass σ V)
    (audio_path : String) (params : Profile)
    (hv : F.vlen (F.decode audio_path params.sample_rate) ≠ 0)
    (hcap : ∀ m ∈ params.features, (F.capability m).isSome)
    (hshort : (pySplitSlash audio_path).length < 2) :
    compute_features F audio_path params =
      (Except.error PyErr.indexError, params.features) := by
  obtain ⟨out0, hout⟩ :=
    featLoop_ok F (processedSignal F audio_path params) params.features [] hcap
  have htr :=
    featLoop_trace F (processedSignal F audio_path params) params.features [] hcap
  have hpair : featLoop F (processedSignal F audio_path params) params.features []
      = (Except.ok out0, params.features) := by
    rcases hfl : featLoop F (processedSignal F audio_path params) params.features []
      with ⟨r1, r2⟩
    rw [hfl] at hout htr
    rw [Prod.mk.injEq]
    exact ⟨hout, htr⟩
  simp only [compute_features, if_neg hv, hpair]
  rw [dif_neg (by omega)]

theorem compute_features_ok_path (F : AudioFeaturesClass σ V)
    (audio_path : String) (params : Profile) :
    ∀ d : List (String × Value V),
    (compute_features F audio_path params).1 = Except.ok d →
    2 ≤ (pySplitSlash audio_path).length := by
  intro d h
  by_cases hv : F.vlen (F.decode audio_path params.sample_rate) = 0
  · simp only [compute_features, if_pos hv] at h
    exact Except.noConfusion h
  · simp only [compute_features, if_neg hv] at h
    split at h
    · exact Except.noConfusion h
    · split at h
      · assumption
      · exact Except.noConfusion h

/-- C6: for every input whose decoded signal has zero length,
`compute_features` fails with the empty-or-invalid-audio `IOError`, and
the list of feature capabilities invoked is empty — the check happens
before any feature computation. -/
theorem c6_empty_audio_guard (F : AudioFeaturesClass σ V)
    (audio_path : String) (params : Profile)
    (h : F.vlen (F.decode audio_path params.sample_rate) = 0) :
    compute_features F audio_path params = (Except.error PyErr.ioError, []) := by
  simp only [compute_features, if_pos h]

/-- Witness for C6 at a concrete collaborator whose decoded signal is
empty: the empty-audio error is raised and no capability is invoked. -/
theorem c6_witness :
    Fempty.vlen (Fempty.decode "r/c/a.mp3" PROFILE.sample_rate) = 0 ∧
    compute_features Fempty "r/c/a.mp3" PROFILE =
      (Except.error PyErr.ioError, []) :=
  ⟨rfl, c6_empty_audio_guard Fempty "r/c/a.mp3" PROFILE rfl⟩

/-- C10: a path with fewer than two slash-separated components makes
`compute_features` raise the `IndexError` of `audio_path.split("/")[-2]`
even though the audio decoded non-empty and every requested feature was
computed (the invocation trace equals the full feature list); and any
successful return requires at least two components. -/
theorem c10_short_path_index_error (F : AudioFeaturesClass σ V)
    (params : Profile) :
    (∀ audio_path : String,
      F.vlen (F.decode audio_path params.sample_rate) ≠ 0 →
      (∀ m ∈ params.features, (F.capability m).isSome) →
      (pySplitSlash audio_path).length < 2 →
      compute_features F audio_path params =
        (Except.error PyErr.indexError, params.features)) ∧
    (∀ (audio_path : String) (d : List (String × Value V)),
      (compute_features F audio_path params).1 = Except.ok d →
      2 ≤ (pySplitSlash audio_path).length) := by
  constructor
  · intro audio_path hv hcap hshort
    exact compute_features_short_path F audio_path params hv hcap hshort
  · intro audio_path d h
    exact compute_features_ok_path F audio_path params d h

/-- Witness for C10: the bare filename `"a.mp3"` decodes non-empty but
`compute_features` raises the index error after computing all four
default features. -/
theorem c10_witness :
    F0.vlen (F0.decode "a.mp3" PROFILE.sample_rate) ≠ 0 ∧
    (pySplitSlash "a.mp3").length < 2 ∧
    compute_features F0 "a.mp3" PROFILE =
      (Except.error PyErr.indexError, PROFILE.features) :=
  ⟨by decide, by decide,
    (c10_short_path_index_error F0 PROFILE).1 "a.mp3" (by decide)
      (fun m _ => rfl) (by decide)⟩

/-- C7: when `downsample_audio` is set, every feature capability is
invoked on the signal obtained by resampling the (possibly end-time
trimmed) decoded signal to `sample_rate / downsample_factor` — the
resampling is applied after any trim and before any feature
computation. -/
theorem c7_trim_then_resample (F : AudioFeaturesClass σ V)
    (audio_path : String) (params : Profile) (m : String) (f : σ → V)
    (hds : params.downsample_audio = true)
    (hv : F.vlen (F.decode audio_path params.sample_rate) ≠ 0)
    (hcap : ∀ m₂ ∈ params.features, (F.capability m₂).isSome)
    (hm : m ∈ params.features) (hf : F.capability m = some f)
    (hm1 : m ≠ "track_id") (hm2 : m ≠ "label")
    (hcomp : 2 ≤ (pySplitSlash audio_path).length) :
    ∃ d, (compute_features F audio_path params).1 = Except.ok d ∧
      dlookup d m = some (Value.feat (f (F.resample_audio
        (trimSignal F (F.decode audio_path params.sample_rate) params.endtime)
        (params.sample_rate / params.downsample_factor)))) := by
  obtain ⟨out0, hout, heq⟩ :=
    compute_features_ok_shape F audio_path params hv hcap hcomp
  refine ⟨dinsert (dinsert out0 "track_id"
      (Value.str (pyReplace (pyBasename audio_path) params.input_audio_format "")))
    "label" (Value.str ((pySplitSlash audio_path).get
      ⟨(pySplitSlash audio_path).length - 2, by omega⟩)), ?_, ?_⟩
  · rw [heq]
  · rw [dlookup_dinsert_ne _ _ _ _ hm2, dlookup_dinsert_ne _ _ _ _ hm1]
    rw [featLoop_lookup_mem F (processedSignal F audio_path params)
      params.features [] out0 m f hm hf hout]
    simp only [processedSignal, hds, if_true]

/-- Witness for C7 on the instrumented collaborator: with trimming and
downsampling both enabled, the value computed for the feature is the
capability applied to the resampled trimmed decoded signal. -/
theorem c7_witness :
    PROFILE_ds.downsample_audio = true ∧
    Ftrace.vlen (Ftrace.decode "a/b.mp3" PROFILE_ds.sample_rate) ≠ 0 ∧
    "hpcp" ∈ PROFILE_ds.features ∧
    2 ≤ (pySplitSlash "a/b.mp3").length ∧
    (∃ d, (compute_features Ftrace "a/b.mp3" PROFILE_ds).1 = Except.ok d ∧
      dlookup d "hpcp" = some (Value.feat ((fun s => s) (Ftrace.resample_audio
        (trimSignal Ftrace (Ftrace.decode "a/b.mp3" PROFILE_ds.sample_rate)
          PROFILE_ds.endtime)
        (PROFILE_ds.sample_rate / PROFILE_ds.downsample_factor))))) :=
  ⟨rfl, by decide, by decide, by decide,
    c7_trim_then_resample Ftrace "a/b.mp3" PROFILE_ds "hpcp" (fun s => s)
      rfl (by decide) (fun m _ => rfl) (by decide) rfl (by decide) (by decide)
      (by decide)⟩

/-- C1 (amended): for every audio path with at least two slash-separated
components that decodes to a non-empty signal, and every profile with a
non-empty feature list whose names are all capabilities,
`compute_features` returns a mapping whose keys are exactly the requested
feature names plus `track_id` and `label`, where `track_id` is the
filename with every occurrence of the configured input-format substring
removed (as `str.replace` does, not only a trailing suffix) and `label`
is the second-to-last slash-separated component of the path (the
immediate parent directory name). -/
theorem c1_track_id_and_parent_label (F : AudioFeaturesClass σ V)
    (audio_path : String) (params : Profile)
    (hv : F.vlen (F.decode audio_path params.sample_rate) ≠ 0)
    (hcap : ∀ m ∈ params.features, (F.capability m).isSome)
    (_hne : params.features ≠ [])
    (hcomp : 2 ≤ (pySplitSlash audio_path).length) :
    ∃ d, (compute_features F audio_path params).1 = Except.ok d ∧
      (∀ k, hasKey d k = true ↔
        (k ∈ params.features ∨ k = "track_id" ∨ k = "label")) ∧
      dlookup d "track_id" = some (Value.str
        (pyReplace (pyBasename audio_path) params.input_audio_format "")) ∧
      dlookup d "label" = some (Value.str ((pySplitSlash audio_path).get
        ⟨(pySplitSlash audio_path).length - 2, by omega⟩)) := by
  obtain ⟨out0, hout, heq⟩ :=
    compute_features_ok_shape F audio_path params hv hcap hcomp
  refine ⟨dinsert (dinsert out0 "track_id"
      (Value.str (pyReplace (pyBasename audio_path) params.input_audio_format "")))
    "label" (Value.str ((pySplitSlash audio_path).get
      ⟨(pySplitSlash audio_path).length - 2, by omega⟩)), ?_, ?_, ?_, ?_⟩
  · rw [heq]
  · intro k
    rw [hasKey_dinsert, hasKey_dinsert]
    have hbase := featLoop_hasKey F (processedSignal F audio_path params)
      params.features [] out0 k hout
    have hnil : hasKey ([] : List (String × Value V)) k = false := rfl
    rw [hnil] at hbase
    simp only [Bool.false_eq_true, or_false] at hbase
    simp only [Bool.or_eq_true, beq_iff_eq, hbase]
    tauto
  · rw [dlookup_dinsert_ne _ _ _ _
      (show ("track_id" : String) ≠ "label" by decide), dlookup_dinsert_self]
  · rw [dlookup_dinsert_self]

/-- Counterexample to C1 as stated: for the path `"r/c/a.mp3b.mp3"` — a
valid decodable input whose filename contains the suffix `.mp3` also in a
non-final position — the computed `track_id` is `"ab"` (every occurrence
of `.mp3` removed), not the filename minus the trailing suffix
(`"a.mp3b"`); and for the bare filename `"a.mp3"`, which decodes to a
non-empty signal, `compute_features` raises an `IndexError` instead of
returning a mapping at all. -/
theorem c1_requested_keys_counterexample :
    (compute_features F0 "r/c/a.mp3b.mp3" PROFILE).1 =
      Except.ok [("hpcp", Value.feat 0), ("key_extractor", Value.feat 0),
        ("madmom_features", Value.feat 0), ("mfcc_htk", Value.feat 0),
        ("track_id", Value.str "ab"), ("label", Value.str "c")] ∧
    stripSuffixSpec "a.mp3b.mp3" ".mp3" = "a.mp3b" ∧
    ("ab" : String) ≠ "a.mp3b" ∧
    (compute_features F0 "a.mp3" PROFILE).1 = Except.error PyErr.indexError ∧
    F0.vlen (F0.decode "a.mp3" PROFILE.sample_rate) ≠ 0 :=
  ⟨rfl, by decide, by decide, rfl, by decide⟩

/-- Witness for the amended C1 at a concrete collaborator and path. -/
theorem c1_amended_witness :
    F0.vlen (F0.decode "r/c/a.mp3b.mp3" PROFILE.sample_rate) ≠ 0 ∧
    PROFILE.features ≠ [] ∧
    2 ≤ (pySplitSlash "r/c/a.mp3b.mp3").length ∧
    (∃ d, (compute_features F0 "r/c/a.mp3b.mp3" PROFILE).1 = Except.ok d ∧
      (∀ k, hasKey d k = true ↔
        (k ∈ PROFILE.features ∨ k = "track_id" ∨ k = "label")) ∧
      dlookup d "track_id" = some (Value.str
        (pyReplace (pyBasename "r/c/a.mp3b.mp3") PROFILE.input_audio_format "")) ∧
      dlookup d "label" = some (Value.str ((pySplitSlash "r/c/a.mp3b.mp3").get
        ⟨(pySplitSlash "r/c/a.mp3b.mp3").length - 2, by decide⟩))) :=
  ⟨by decide, by decide, by decide,
    c1_track_id_and_parent_label F0 "r/c/a.mp3b.mp3" PROFILE (by decide)
      (fun m _ => rfl) (by decide) (by decide)⟩

theorem foldl_processSong (F : AudioFeaturesClass σ V) (params : Profile)
    (input_txt_file feature_dir : String) (data : List String) :
    ∀ st : ExtractState V,
    data.foldl (processSong F params input_txt_file feature_dir) st =
      { writes := st.writes ++ data.filterMap (trySong F params feature_dir),
        errors := st.errors ++ errorEntries input_txt_file
          (data.filter (fun s => (trySong F params feature_dir s).isNone)),
        progressCount := st.progressCount + data.length,
        computeCalls := st.computeCalls + data.length } := by
  induction data with
  | nil =>
    intro st
    simp [errorEntries]
  | cons song rest ih =>
    intro st
    rw [List.foldl_cons, ih]
    cases h : trySong F params feature_dir song with
    | some w =>
      simp only [processSong, h, List.filterMap_cons, List.filter_cons,
        Option.isNone_some, Bool.false_eq_true, if_false, List.length_cons]
      rw [ExtractState.mk.injEq]
      refine ⟨by simp, rfl, by omega, by omega⟩
    | none =>
      simp only [processSong, h, List.filterMap_cons, List.filter_cons,
        Option.isNone_none, if_true, List.length_cons]
      rw [ExtractState.mk.injEq]
      refine ⟨rfl, by simp [errorEntries], by omega, by omega⟩

theorem length_filterMap_add {α : Type u} {β : Type v} (g : α → Option β)
    (l : List α) :
    (l.filterMap g).length + (l.filter (fun a => (g a).isNone)).length
      = l.length := by
  induction l with
  | nil => rfl
  | cons a l ih =>
    cases h : g a with
    | some b =>
      simp only [List.filterMap_cons, h, List.filter_cons, Option.isNone_some,
        Bool.false_eq_true, if_false, List.length_cons]
      omega
    | none =>
      simp only [List.filterMap_cons, h, List.filter_cons, Option.isNone_none,
        if_true, List.length_cons]
      omega

theorem run_result_of_nonempty (F : AudioFeaturesClass σ V)
    (pexists : String → Bool) (data0 : List String)
    (input_txt_file feature_dir : String) (params : Profile)
    (errors0 : List String) (start_mono wall_end : Rat)
    (h : 0 < (data0.filter pexists).length) :
    compute_features_from_list_file F pexists data0 input_txt_file feature_dir
      params errors0 start_mono wall_end =
      { raisedEmptyManifest := false,
        processed := data0.filter pexists,
        writes := (data0.filter pexists).filterMap (trySong F params feature_dir),
        errors := errors0 ++ errorEntries input_txt_file
          ((data0.filter pexists).filter
            (fun s => (trySong F params feature_dir s).isNone)),
        progressCount := (data0.filter pexists).length,
        computeCalls := (data0.filter pexists).length,
        summaryElapsed := some (start_mono - wall_end) } := by
  simp only [compute_features_from_list_file]
  rw [if_neg (by omega)]
  rw [foldl_processSong]
  simp

/-- C9: a manifest that resolves to zero existing paths after filtering
makes the Runner raise the empty-manifest error before the song loop:
no artifact is written, no `compute_features` call is made, no progress
is reported, and no summary line value is produced. -/
theorem c9_empty_manifest_raises (F : AudioFeaturesClass σ V)
    (pexists : String → Bool) (data0 : List String)
    (input_txt_file feature_dir : String) (params : Profile)
    (errors0 : List String) (start_mono wall_end : Rat)
    (h : (data0.filter pexists).length = 0) :
    compute_features_from_list_file F pexists data0 input_txt_file feature_dir
      params errors0 start_mono wall_end =
      { raisedEmptyManifest := true, processed := [], writes := [],
        errors := errors0, progressCount := 0, computeCalls := 0,
        summaryElapsed := none } := by
  simp only [compute_features_from_list_file]
  rw [if_pos (by omega)]

/-- Witness for C9 on a manifest whose only entry does not exist. -/
theorem c9_witness :
    ((["x/gone.mp3"] : List String).filter (fun _ => false)).length = 0 ∧
    compute_features_from_list_file Fsig (fun _ => false) ["x/gone.mp3"]
      "list.txt" "out/" PROFILE [] 0 0 =
      { raisedEmptyManifest := true, processed := [], writes := [],
        errors := [], progressCount := 0, computeCalls := 0,
        summaryElapsed := none } :=
  ⟨by decide, c9_empty_manifest_raises Fsig (fun _ => false) ["x/gone.mp3"]
    "list.txt" "out/" PROFILE [] 0 0 (by decide)⟩

/-- C8: when at least one manifest entry exists, the Runner does not
raise, iterates exactly over the existing entries in manifest order,
reports progress once per existing entry, and its whole observable
outcome is unchanged if the non-existing entries are deleted from the
manifest — a missing entry never causes an error. -/
theorem c8_missing_paths_filtered (F : AudioFeaturesClass σ V)
    (pexists : String → Bool) (data0 : List String)
    (input_txt_file feature_dir : String) (params : Profile)
    (errors0 : List String) (start_mono wall_end : Rat)
    (h : 0 < (data0.filter pexists).length) :
    (compute_features_from_list_file F pexists data0 input_txt_file feature_dir
      params errors0 start_mono wall_end).raisedEmptyManifest = false ∧
    (compute_features_from_list_file F pexists data0 input_txt_file feature_dir
      params errors0 start_mono wall_end).processed = data0.filter pexists ∧
    (compute_features_from_list_file F pexists data0 input_txt_file feature_dir
      params errors0 start_mono wall_end).progressCount
      = (data0.filter pexists).length ∧
    compute_features_from_list_file F pexists data0 input_txt_file feature_dir
      params errors0 start_mono wall_end =
      compute_features_from_list_file F pexists (data0.filter pexists)
        input_txt_file feature_dir params errors0 start_mono wall_end := by
  have hff : (data0.filter pexists).filter pexists = data0.filter pexists := by
    rw [List.filter_filter]
    simp
  have hr := run_result_of_nonempty F pexists data0 input_txt_file feature_dir
    params errors0 start_mono wall_end h
  have h2 : 0 < ((data0.filter pexists).filter pexists).length := by
    rw [hff]
    exact h
  have hr2 := run_result_of_nonempty F pexists (data0.filter pexists)
    input_txt_file feature_dir params errors0 start_mono wall_end h2
  rw [hff] at hr2
  exact ⟨by rw [hr], by rw [hr], by rw [hr], by rw [hr, hr2]⟩

/-- Witness for C8 on a manifest with one existing and one missing
entry. -/
theorem c8_witness :
    0 < ((["x/a.mp3", "missing"] : List String).filter
      (fun s => s == "x/a.mp3")).length ∧
    ((compute_features_from_list_file Fsig (fun s => s == "x/a.mp3")
      ["x/a.mp3", "missing"] "list.txt" "out/" PROFILE [] 0 0).raisedEmptyManifest
      = false ∧
    (compute_features_from_list_file Fsig (fun s => s == "x/a.mp3")
      ["x/a.mp3", "missing"] "list.txt" "out/" PROFILE [] 0 0).processed
      = ["x/a.mp3", "missing"].filter (fun s => s == "x/a.mp3") ∧
    (compute_features_from_list_file Fsig (fun s => s == "x/a.mp3")
      ["x/a.mp3", "missing"] "list.txt" "out/" PROFILE [] 0 0).progressCount
      = (["x/a.mp3", "missing"].filter (fun s => s == "x/a.mp3")).length ∧
    compute_features_from_list_file Fsig (fun s => s == "x/a.mp3")
      ["x/a.mp3", "missing"] "list.txt" "out/" PROFILE [] 0 0 =
      compute_features_from_list_file Fsig (fun s => s == "x/a.mp3")
        (["x/a.mp3", "missing"].filter (fun s => s == "x/a.mp3"))
        "list.txt" "out/" PROFILE [] 0 0) :=
  ⟨by decide, c8_missing_paths_filtered Fsig (fun s => s == "x/a.mp3")
    ["x/a.mp3", "missing"] "list.txt" "out/" PROFILE [] 0 0 (by decide)⟩

/-- C3: on a manifest whose entries all exist and of which exactly one
song fails, the Runner completes without raising, performs one artifact
write per non-failing song (N-1 writes), appends exactly the record
(manifest path, failing path) — two consecutive strings — to the
process-wide error list, reports progress N times, and still produces
the elapsed-time summary value. -/
theorem c3_single_failure_isolated (F : AudioFeaturesClass σ V)
    (pexists : String → Bool) (data0 : List String)
    (input_txt_file feature_dir : String) (params : Profile)
    (errors0 : List String) (start_mono wall_end : Rat) (bad : String)
    (hex : ∀ s ∈ data0, pexists s = true)
    (hone : data0.filter (fun s => (trySong F params feature_dir s).isNone)
      = [bad]) :
    (compute_features_from_list_file F pexists data0 input_txt_file feature_dir
      params errors0 start_mono wall_end).raisedEmptyManifest = false ∧
    (compute_features_from_list_file F pexists data0 input_txt_file feature_dir
      params errors0 start_mono wall_end).writes.length = data0.length - 1 ∧
    (compute_features_from_list_file F pexists data0 input_txt_file feature_dir
      params errors0 start_mono wall_end).errors
      = errors0 ++ [input_txt_file, bad] ∧
    (compute_features_from_list_file F pexists data0 input_txt_file feature_dir
      params errors0 start_mono wall_end).progressCount = data0.length ∧
    (compute_features_from_list_file F pexists data0 input_txt_file feature_dir
      params errors0 start_mono wall_end).summaryElapsed
      = some (start_mono - wall_end) := by
  have hfe : data0.filter pexists = data0 := List.filter_eq_self.mpr hex
  have hmem : bad ∈ data0 := by
    have hb : bad ∈ data0.filter
        (fun s => (trySong F params feature_dir s).isNone) := by
      rw [hone]
      exact List.mem_singleton_self bad
    exact List.mem_of_mem_filter hb
  have hpos : 0 < (data0.filter pexists).length := by
    rw [hfe]
    exact List.length_pos.mpr (List.ne_nil_of_mem hmem)
  have hr := run_result_of_nonempty F pexists data0 input_txt_file feature_dir
    params errors0 start_mono wall_end hpos
  rw [hfe] at hr
  have hlen := length_filterMap_add (trySong F params feature_dir) data0
  rw [hone] at hlen
  refine ⟨by rw [hr], ?_, ?_, by rw [hr], by rw [hr]⟩
  · rw [hr]
    show (data0.filterMap (trySong F params feature_dir)).length
      = data0.length - 1
    simp only [List.length_singleton] at hlen
    omega
  · rw [hr, hone]
    rfl

/-- Witness for C3 on a two-song manifest whose second song decodes to
an empty signal and therefore fails. -/
theorem c3_witness :
    (∀ s ∈ (["x/a.mp3", "x/bad.mp3"] : List String), (fun _ => true) s = true) ∧
    (["x/a.mp3", "x/bad.mp3"] : List String).filter
      (fun s => (trySong Fsig PROFILE "out/" s).isNone) = ["x/bad.mp3"] ∧
    ((compute_features_from_list_file Fsig (fun _ => true)
      ["x/a.mp3", "x/bad.mp3"] "list.txt" "out/" PROFILE [] 0 0).raisedEmptyManifest
      = false ∧
    (compute_features_from_list_file Fsig (fun _ => true)
      ["x/a.mp3", "x/bad.mp3"] "list.txt" "out/" PROFILE [] 0 0).writes.length
      = (["x/a.mp3", "x/bad.mp3"] : List String).length - 1 ∧
    (compute_features_from_list_file Fsig (fun _ => true)
      ["x/a.mp3", "x/bad.mp3"] "list.txt" "out/" PROFILE [] 0 0).errors
      = [] ++ ["list.txt", "x/bad.mp3"] ∧
    (compute_features_from_list_file Fsig (fun _ => true)
      ["x/a.mp3", "x/bad.mp3"] "list.txt" "out/" PROFILE [] 0 0).progressCount
      = (["x/a.mp3", "x/bad.mp3"] : List String).length ∧
    (compute_features_from_list_file Fsig (fun _ => true)
      ["x/a.mp3", "x/bad.mp3"] "list.txt" "out/" PROFILE [] 0 0).summaryElapsed
      = some ((0 : Rat) - 0)) :=
  ⟨fun s _ => rfl, by decide,
    c3_single_failure_isolated Fsig (fun _ => true) ["x/a.mp3", "x/bad.mp3"]
      "list.txt" "out/" PROFILE [] 0 0 "x/bad.mp3" (fun s _ => rfl) (by decide)⟩

/-- C4: the summary line of a completed run reports
`start_time - time.time()` — the monotonic start value minus the
wall-clock end value — exactly as line 119 computes it. At any realistic
clock reading (monotonic start 100 s, wall-clock end 1.7e9 s) this value
is a large negative number, while the true duration `end - start` on one
clock would be non-negative: the code contradicts its own
"Process finished in ... seconds" message. -/
theorem c4_elapsed_line_evaluation :
    (compute_features_from_list_file Fsig (fun _ => true) ["x/a.mp3"]
      "list.txt" "out/" PROFILE [] 100 1700000000).summaryElapsed =
      some ((100 : Rat) - 1700000000) ∧
    ((100 : Rat) - 1700000000) < 0 ∧ (0 : Rat) ≤ 1700000000 - 100 :=
  ⟨rfl, by norm_num, by norm_num⟩

/-- Counterexample to C2 as stated: with `n_workers = 2` and the single
temporary manifest existing, `batch_feature_extractor` hands the joblib
pool exactly one Runner invocation, not two — `glob.glob(temp.name)` has
exactly one match, and `n_workers` only sets the pool size `n_jobs`. -/
theorem c2_n_workers_counterexample :
    (batch_feature_extractor ["./tmpab12"] "./tmpab12" "fdir/" 2 PROFILE).n_jobs
      = 2 ∧
    (batch_feature_extractor ["./tmpab12"] "./tmpab12" "fdir/" 2
      PROFILE).tasks.length = 1 ∧
    (batch_feature_extractor ["./tmpab12"] "./tmpab12" "fdir/" 2
      PROFILE).tasks.length ≠ 2 :=
  ⟨rfl, rfl, by decide⟩

/-- C2 (amended): for every `n_workers`, the Batch Directory Orchestrator
dispatches exactly one invocation of the List-Driven Extraction Runner,
given the single manifest path, the `feature_dir` and the profile;
`n_workers` is passed through as the pool size only. -/
theorem c2_single_dispatch (fs : List String) (temp_name feature_dir : String)
    (n_workers : Int) (extractor_profile : Profile)
    (h : fs.count temp_name = 1) :
    (batch_feature_extractor fs temp_name feature_dir n_workers
      extractor_profile).tasks = [(temp_name, feature_dir, extractor_profile)] ∧
    (batch_feature_extractor fs temp_name feature_dir n_workers
      extractor_profile).n_jobs = n_workers := by
  have hglob : glob_glob fs temp_name = [temp_name] := by
    unfold glob_glob
    rw [List.filter_beq fs temp_name, h]
    rfl
  simp only [batch_feature_extractor, hglob]
  exact ⟨rfl, trivial⟩

/-- Witness for the amended C2, with the sentinel worker count `-1`. -/
theorem c2_amended_witness :
    (["./tmp01"] : List String).count "./tmp01" = 1 ∧
    ((batch_feature_extractor ["./tmp01"] "./tmp01" "fd/" (-1) PROFILE).tasks
      = [("./tmp01", "fd/", PROFILE)] ∧
    (batch_feature_extractor ["./tmp01"] "./tmp01" "fd/" (-1) PROFILE).n_jobs
      = -1) :=
  ⟨by decide, c2_single_dispatch ["./tmp01"] "./tmp01" "fd/" (-1) PROFILE
    (by decide)⟩

/-- Counterexample to C5 as stated: the default profile does not have a
five-element feature list — it has four named features. -/
theorem c5_profile_counterexample :
    ¬(PROFILE.sample_rate = 44100 ∧ PROFILE.downsample_audio = false ∧
      PROFILE.endtime = none ∧ PROFILE.features.length = 5) := by
  intro h
  exact absurd h.2.2.2 (by decide)

/-- C5 (amended): the default `PROFILE` has sample rate 44100,
downsampling disabled, no end-time trim, and exactly four named
features. -/
theorem c5_default_profile :
    PROFILE.sample_rate = 44100 ∧ PROFILE.downsample_audio = false ∧
    PROFILE.endtime = none ∧
    PROFILE.features = ["hpcp", "key_extractor", "madmom_features", "mfcc_htk"] ∧
    PROFILE.features.length = 4 :=
  ⟨rfl, rfl, rfl, rfl, rfl⟩

end Acoss
